import Mathlib

/-!
Verification of the pinger component of the tiny IRC client
(file src/libtiny_client/src/pinger.rs).

The component is a two-state liveness task. Each iteration of its loop
constructs a fresh 30 second delay and races it, via a mutually exclusive
select, against the receive end of a single-slot reset mailbox. Exactly one
branch runs per iteration; we embed the outcome of the race as a `Trigger`
and the loop body as a step function on the task state, then study runs of
the loop over lists of triggers.
-/

/-- Events emitted by the task to its owner; the enum Event of pinger.rs. -/
inductive Event where
  | SendPing
  | Disconnect
deriving DecidableEq, Repr

/-- The task state; the enum PingerState of pinger.rs. Initial state is
SendPing; there is no terminal state value, termination is the task
returning. -/
inductive PingerState where
  | SendPing
  | ExpectPong
deriving DecidableEq, Repr

/-- The initial state of the task, from the binding of state in pinger_task. -/
def initialState : PingerState := PingerState.SendPing

/-- Outcome of the select race in one loop iteration of pinger_task: either
the delay completes first, or the reset stream yields a unit signal, or the
reset stream yields None because every sender was dropped. Exactly one of
these happens per iteration. -/
inductive Trigger where
  | timerElapsed
  | resetReceived
  | mailboxClosed
deriving DecidableEq, Repr

/-- Result of one iteration of the loop body: either the loop continues in a
new state, or the task returns; in both cases at most one event was sent. -/
inductive StepResult where
  | cont (s : PingerState) (ev : Option Event)
  | halt (ev : Option Event)
deriving DecidableEq, Repr

/-- One iteration of the loop body of pinger_task, given which branch of the
select fired. Embeds the two match expressions of the select arms:
on the delay branch, state SendPing sends Event::SendPing and moves to
ExpectPong while state ExpectPong sends Event::Disconnect and returns;
on the reset branch, Some(()) sets the state back to SendPing and None
makes the task return. -/
def pingerStep (s : PingerState) (t : Trigger) : StepResult :=
  match t with
  | Trigger.timerElapsed =>
    match s with
    | PingerState.SendPing => StepResult.cont PingerState.ExpectPong (some Event.SendPing)
    | PingerState.ExpectPong => StepResult.halt (some Event.Disconnect)
  | Trigger.resetReceived => StepResult.cont PingerState.SendPing none
  | Trigger.mailboxClosed => StepResult.halt none

/-- Run of the task loop over a list of triggers, one per iteration, from a
given state. Returns the list of emitted events in order, and the final
status: some s when the trigger list ran out with the loop still live in
state s, none when the task returned. Triggers after a return are ignored,
as the loop is no longer running. -/
def pingerRun : PingerState → List Trigger → List Event × Option PingerState
  | s, [] => ([], some s)
  | s, t :: ts =>
    match pingerStep s t with
    | StepResult.cont s' ev =>
      let r := pingerRun s' ts
      (ev.toList ++ r.1, r.2)
    | StepResult.halt ev => (ev.toList, none)

/-- Trace of a run: the list of iterations the task actually executed, each
recorded as the trigger it consumed together with the event it emitted in
that iteration, if any. The trace stops at the iteration in which the task
returns. -/
def pingerTrace : PingerState → List Trigger → List (Trigger × Option Event)
  | _, [] => []
  | s, t :: ts =>
    match pingerStep s t with
    | StepResult.cont s' ev => (t, ev) :: pingerTrace s' ts
    | StepResult.halt ev => [(t, ev)]

/-- A trace is consistent with the step function from a given start state:
each recorded iteration emits exactly the event the step function dictates,
and a halting iteration is the last one. -/
def ChainOK : PingerState → List (Trigger × Option Event) → Prop
  | _, [] => True
  | s, (t, ev) :: tr =>
    match pingerStep s t with
    | StepResult.cont s' ev' => ev = ev' ∧ ChainOK s' tr
    | StepResult.halt ev' => ev = ev' ∧ tr = []

/-- The fixed interval of the delay constructed at the top of every loop
iteration: Duration::from_secs(30) in pinger_task. -/
def timeout : Nat := 30

/-- Timed form of a trigger for one iteration: either no reset arrives
before the fresh deadline so the delay branch fires at start time plus
timeout, or a reset signal arrives d time units into the iteration, or the
reset mailbox closes d time units into the iteration. A reset or close wins
the race only when it precedes the deadline, so d is meant to satisfy
d < timeout. -/
inductive TimedTrigger where
  | timerFires
  | resetAt (d : Nat)
  | closedAt (d : Nat)
deriving DecidableEq, Repr

/-- Timed run of the task loop: the loop carries the current time, and every
iteration constructs a fresh deadline at its start time plus timeout; a
deadline of an earlier iteration is never awaited again. Events are
returned with the time at which they are emitted; the final status is
some (s, now) when the loop is still live and none when the task returned. -/
def timedRun : PingerState → Nat → List TimedTrigger → List (Nat × Event) × Option (PingerState × Nat)
  | s, now, [] => ([], some (s, now))
  | s, now, TimedTrigger.timerFires :: ts =>
    match s with
    | PingerState.SendPing =>
      let r := timedRun PingerState.ExpectPong (now + timeout) ts
      ((now + timeout, Event.SendPing) :: r.1, r.2)
    | PingerState.ExpectPong => ([(now + timeout, Event.Disconnect)], none)
  | _, now, TimedTrigger.resetAt d :: ts => timedRun PingerState.SendPing (now + d) ts
  | _, _, TimedTrigger.closedAt _ :: _ => ([], none)

/-- Error of a non-blocking try_send on a bounded channel: the channel is at
capacity, or the receive side was dropped. -/
inductive TrySendError where
  | full
  | closed
deriving DecidableEq, Repr

/-- Outcome of a loop iteration in the model that tracks the single-slot
event mailbox: continue with new state and mailbox contents, return with
the mailbox contents, or panic because try_send returned an error and the
result was unwrapped. -/
inductive TaskOutcome where
  | cont (s : PingerState) (slot : Option Event)
  | halt (slot : Option Event)
  | panicked
deriving DecidableEq, Repr

/-- Non-blocking send of an event into the single-slot event mailbox, whose
receive side is held by the owner: succeeds exactly when the slot is empty. -/
def eventTrySend (slot : Option Event) (e : Event) : Except TrySendError (Option Event) :=
  match slot with
  | none => Except.ok (some e)
  | some _ => Except.error TrySendError.full

/-- One iteration of the loop body of pinger_task, tracking the single-slot
event mailbox. The delay branch performs snd_ev.try_send(event).unwrap():
on a try_send error the unwrap panics. The reset branch touches the mailbox
not at all. -/
def pingerStepMb (s : PingerState) (slot : Option Event) (t : Trigger) : TaskOutcome :=
  match t with
  | Trigger.timerElapsed =>
    match s with
    | PingerState.SendPing =>
      match eventTrySend slot Event.SendPing with
      | Except.ok slot' => TaskOutcome.cont PingerState.ExpectPong slot'
      | Except.error _ => TaskOutcome.panicked
    | PingerState.ExpectPong =>
      match eventTrySend slot Event.Disconnect with
      | Except.ok slot' => TaskOutcome.halt slot'
      | Except.error _ => TaskOutcome.panicked
  | Trigger.resetReceived => TaskOutcome.cont PingerState.SendPing slot
  | Trigger.mailboxClosed => TaskOutcome.halt slot

/-- Capacity of the reset mailbox, from mpsc::channel(1) in Pinger::new. -/
def resetMailboxCapacity : Nat := 1

/-- Capacity of the event mailbox, from mpsc::channel(1) in Pinger::new. -/
def eventMailboxCapacity : Nat := 1

/-- State of the single-slot reset mailbox: its one slot, holding at most
one pending unit signal, and whether the receive side is still held by the
task. -/
structure ResetMailbox where
  slot : Option Unit
  receiverOpen : Bool
deriving DecidableEq, Repr

/-- Non-blocking send of a reset signal: fails with closed when the task
has dropped the receive side, with full when a reset is already pending,
and otherwise places the signal in the slot. -/
def ResetMailbox.trySend (m : ResetMailbox) : Except TrySendError ResetMailbox :=
  match m.receiverOpen, m.slot with
  | false, _ => Except.error TrySendError.closed
  | true, some _ => Except.error TrySendError.full
  | true, none => Except.ok { m with slot := some () }

/-- The liveness handle: it owns the send end of the reset mailbox, the
struct Pinger of pinger.rs. -/
structure Pinger where
  snd_rst : ResetMailbox
deriving DecidableEq, Repr

/-- The reset operation of the handle: a try_send of a unit signal whose
result is discarded, so the mailbox is updated when the send succeeds and
left unchanged when it fails; no error reaches the caller and the call
never blocks. -/
def Pinger.reset (p : Pinger) : Pinger :=
  match p.snd_rst.trySend with
  | Except.ok m' => { snd_rst := m' }
  | Except.error _ => p

/-- Helper: in any run, an emitted Disconnect is the last emitted event. -/
theorem pingerRun_disconnect_last (s : PingerState) (us : List Trigger)
    (l₁ l₂ : List Event) (h : (pingerRun s us).1 = l₁ ++ Event.Disconnect :: l₂) :
    l₂ = [] := by
  induction us generalizing s l₁ with
  | nil =>
    simp [pingerRun] at h
  | cons t ts ih =>
    cases t with
    | timerElapsed =>
      cases s with
      | SendPing =>
        simp [pingerRun, pingerStep, Option.toList] at h
        cases l₁ with
        | nil => simp at h
        | cons e l₁ =>
          simp at h
          exact ih PingerState.ExpectPong l₁ h.2
      | ExpectPong =>
        simp [pingerRun, pingerStep, Option.toList] at h
        cases l₁ with
        | nil =>
          simpa using h
        | cons e l₁ =>
          simp at h
    | resetReceived =>
      simp [pingerRun, pingerStep, Option.toList] at h
      exact ih PingerState.SendPing l₁ h
    | mailboxClosed =>
      simp [pingerRun, pingerStep, Option.toList] at h

/-- C1: in state SendPing, when the timer elapses before any reset, the task
emits exactly one SendPing event in that iteration and continues in state
ExpectPong. -/
theorem timer_in_sendPing_emits_ping (ts : List Trigger) :
    pingerStep PingerState.SendPing Trigger.timerElapsed
      = StepResult.cont PingerState.ExpectPong (some Event.SendPing)
    ∧ pingerRun PingerState.SendPing (Trigger.timerElapsed :: ts)
      = (Event.SendPing :: (pingerRun PingerState.ExpectPong ts).1,
         (pingerRun PingerState.ExpectPong ts).2) := by
  exact ⟨rfl, by simp [pingerRun, pingerStep, Option.toList]⟩

/-- C2: in state ExpectPong, when the timer elapses before any reset, the
task emits Disconnect and returns; whatever triggers follow, no further
event is emitted, and in any run at all a Disconnect is the last event
emitted. -/
theorem timer_in_expectPong_disconnects (ts : List Trigger) :
    pingerRun PingerState.ExpectPong (Trigger.timerElapsed :: ts) = ([Event.Disconnect], none)
    ∧ ∀ (s : PingerState) (us : List Trigger) (l₁ l₂ : List Event),
        (pingerRun s us).1 = l₁ ++ Event.Disconnect :: l₂ → l₂ = [] := by
  refine ⟨by simp [pingerRun, pingerStep, Option.toList], ?_⟩
  intro s us l₁ l₂ h
  exact pingerRun_disconnect_last s us l₁ l₂ h

/-- Witness for C2 at the concrete run from ExpectPong with one timer
elapse: the event list decomposes around its Disconnect with an empty
tail. -/
theorem timer_in_expectPong_disconnects_witness :
    (pingerRun PingerState.ExpectPong [Trigger.timerElapsed]).1
      = [] ++ Event.Disconnect :: ([] : List Event)
    ∧ ([] : List Event) = [] := by
  constructor
  · decide
  · exact (timer_in_expectPong_disconnects []).2 PingerState.ExpectPong
      [Trigger.timerElapsed] [] [] (by decide)

/-- C4: when the reset mailbox is closed because the handle was dropped, the
task returns from either state without emitting any event, whatever
triggers would have followed. -/
theorem closed_mailbox_terminates_silently (s : PingerState) (ts : List Trigger) :
    pingerStep s Trigger.mailboxClosed = StepResult.halt none
    ∧ pingerRun s (Trigger.mailboxClosed :: ts) = ([], none) := by
  cases s <;> exact ⟨rfl, by simp [pingerRun, pingerStep, Option.toList]⟩

/-- Helper: every event of a timed run is emitted no earlier than one full
timeout after the start of the run, because each iteration awaits only the
deadline it constructed at its own start. -/
theorem timedRun_time_lb (s : PingerState) (now : Nat) (ts : List TimedTrigger) :
    ∀ p ∈ (timedRun s now ts).1, now + timeout ≤ p.1 := by
  induction ts generalizing s now with
  | nil =>
    intro p hp
    simp [timedRun] at hp
  | cons t ts ih =>
    intro p hp
    cases t with
    | timerFires =>
      cases s with
      | SendPing =>
        simp [timedRun] at hp
        rcases hp with hp | hp
        · simp [hp]
        · have := ih PingerState.ExpectPong (now + timeout) p hp
          omega
      | ExpectPong =>
        simp [timedRun] at hp
        simp [hp]
    | resetAt d =>
      simp [timedRun] at hp
      have := ih PingerState.SendPing (now + d) p hp
      omega
    | closedAt d =>
      simp [timedRun] at hp

/-- C3: receiving a reset signal in either state emits no event, sets the
state back to SendPing, and rearms the timer for a fresh full interval: in
the timed run the reset iteration contributes no event and every later
event comes at least one full timeout after the reset arrived. -/
theorem reset_rearms (s : PingerState) (ts : List Trigger)
    (s' : PingerState) (now d : Nat) (us : List TimedTrigger) (_hd : d < timeout) :
    pingerStep s Trigger.resetReceived = StepResult.cont PingerState.SendPing none
    ∧ pingerRun s (Trigger.resetReceived :: ts) = pingerRun PingerState.SendPing ts
    ∧ timedRun s' now (TimedTrigger.resetAt d :: us)
        = timedRun PingerState.SendPing (now + d) us
    ∧ ∀ p ∈ (timedRun s' now (TimedTrigger.resetAt d :: us)).1,
        now + d + timeout ≤ p.1 := by
  refine ⟨by cases s <;> rfl, ?_, rfl, ?_⟩
  · cases s <;> simp [pingerRun, pingerStep, Option.toList]
  · intro p hp
    simp only [timedRun] at hp
    exact timedRun_time_lb PingerState.SendPing (now + d) us p hp

/-- Witness for C3 at state ExpectPong, a reset one time unit into the
iteration and a single following timer fire: the reset rearms and the next
event comes a full timeout after the reset. -/
theorem reset_rearms_witness :
    (1 : Nat) < timeout
    ∧ pingerRun PingerState.ExpectPong [Trigger.resetReceived]
        = pingerRun PingerState.SendPing []
    ∧ ((31 : Nat), Event.SendPing)
        ∈ (timedRun PingerState.ExpectPong 0 [TimedTrigger.resetAt 1, TimedTrigger.timerFires]).1
    ∧ (0 : Nat) + 1 + timeout ≤ 31 := by
  refine ⟨by decide, ?_, by decide, ?_⟩
  · exact (reset_rearms PingerState.ExpectPong [] PingerState.ExpectPong 0 1 []
      (by decide)).2.1
  · exact (reset_rearms PingerState.SendPing [] PingerState.ExpectPong 0 1
      [TimedTrigger.timerFires] (by decide)).2.2.2 (31, Event.SendPing) (by decide)

/-- C5: a reset call returns normally in every mailbox state: with the
receiver open and the slot empty it places the signal, with a reset already
pending it silently coalesces and changes nothing, with the receiver closed
it changes nothing, and whenever the underlying try_send fails the error is
discarded rather than surfaced. -/
theorem reset_never_fails (p : Pinger) :
    (p.snd_rst.receiverOpen = true → p.snd_rst.slot = none →
      Pinger.reset p = ⟨{ p.snd_rst with slot := some () }⟩)
    ∧ (∀ u, p.snd_rst.slot = some u → Pinger.reset p = p)
    ∧ (p.snd_rst.receiverOpen = false → Pinger.reset p = p)
    ∧ (∀ e, p.snd_rst.trySend = Except.error e → Pinger.reset p = p) := by
  obtain ⟨⟨slot, open'⟩⟩ := p
  cases open' <;> cases slot <;>
    simp [Pinger.reset, ResetMailbox.trySend]

/-- Witness for C5 at the empty open mailbox: the reset call stores the
signal. -/
theorem reset_never_fails_witness :
    (Pinger.mk (ResetMailbox.mk none true)).snd_rst.receiverOpen = true
    ∧ (Pinger.mk (ResetMailbox.mk none true)).snd_rst.slot = none
    ∧ Pinger.reset (Pinger.mk (ResetMailbox.mk none true))
        = Pinger.mk (ResetMailbox.mk (some ()) true) := by
  refine ⟨rfl, rfl, ?_⟩
  exact (reset_never_fails (Pinger.mk (ResetMailbox.mk none true))).1 rfl rfl

/-- C6: the reset mailbox has capacity one, and calling reset twice before
the task consumes a signal has exactly the effect of calling it once: the
second signal is absorbed by the pending one. -/
theorem reset_idempotent :
    resetMailboxCapacity = 1
    ∧ ∀ p : Pinger, Pinger.reset (Pinger.reset p) = Pinger.reset p := by
  refine ⟨rfl, ?_⟩
  intro p
  obtain ⟨⟨slot, open'⟩⟩ := p
  cases open' <;> cases slot <;>
    simp [Pinger.reset, ResetMailbox.trySend]

/-- C7: when the timer elapses while the event mailbox still holds an
unconsumed event, the iteration outcome in either state is the panic of
the unwrapped try_send, a constructor distinct from every continuing or
returning outcome, so the task neither blocks nor drops the event. -/
theorem full_event_mailbox_panics (s : PingerState) (e : Event) :
    pingerStepMb s (some e) Trigger.timerElapsed = TaskOutcome.panicked
    ∧ eventTrySend (some e) Event.SendPing = Except.error TrySendError.full
    ∧ eventTrySend (some e) Event.Disconnect = Except.error TrySendError.full := by
  exact ⟨by cases s <;> rfl, rfl, rfl⟩

/-- C8: every loop iteration constructs a fresh deadline one default
timeout of 30 time units after its own start; no event is ever emitted
before one full timeout from the start of the current iteration, a reset
iteration contributes exactly the events of the rearmed run, and after a
reset strictly inside the interval no event occurs at the stale deadline
of the iteration the reset interrupted. -/
theorem fresh_deadline_each_iteration :
    timeout = 30
    ∧ (∀ (s : PingerState) (now : Nat) (us : List TimedTrigger),
        ∀ p ∈ (timedRun s now us).1, now + timeout ≤ p.1)
    ∧ (∀ (s : PingerState) (now d : Nat) (us : List TimedTrigger),
        (timedRun s now (TimedTrigger.resetAt d :: us)).1
          = (timedRun PingerState.SendPing (now + d) us).1)
    ∧ (∀ (s : PingerState) (now d : Nat) (us : List TimedTrigger),
        0 < d → d < timeout →
        ∀ p ∈ (timedRun s now (TimedTrigger.resetAt d :: us)).1, p.1 ≠ now + timeout) := by
  refine ⟨rfl, timedRun_time_lb, fun s now d us => rfl, ?_⟩
  intro s now d us hd _ p hp
  simp only [timedRun] at hp
  have := timedRun_time_lb PingerState.SendPing (now + d) us p hp
  omega

/-- Witness for C8: with a reset one time unit into an iteration starting
at time zero, the following ping fires at time 31, not at the stale
deadline 30. -/
theorem fresh_deadline_each_iteration_witness :
    (0 : Nat) < 1 ∧ (1 : Nat) < timeout
    ∧ ((31 : Nat), Event.SendPing)
        ∈ (timedRun PingerState.SendPing 0 [TimedTrigger.resetAt 1, TimedTrigger.timerFires]).1
    ∧ (31 : Nat) ≠ 0 + timeout := by
  refine ⟨by decide, by decide, by decide, ?_⟩
  exact fresh_deadline_each_iteration.2.2.2 PingerState.SendPing 0 1
    [TimedTrigger.timerFires] (by decide) (by decide) (31, Event.SendPing) (by decide)

/-- Helper: the trace of any run is consistent with the step function. -/
theorem chainOK_pingerTrace (ts : List Trigger) (s : PingerState) :
    ChainOK s (pingerTrace s ts) := by
  induction ts generalizing s with
  | nil => simp [pingerTrace, ChainOK]
  | cons t ts ih =>
    cases s <;> cases t <;>
      simp [pingerTrace, pingerStep, ChainOK] <;> apply ih

/-- Helper: in a consistent trace from state SendPing, the first emitted
event, if any, is SendPing. -/
theorem chainOK_first_event (tr : List (Trigger × Option Event))
    (h : ChainOK PingerState.SendPing tr) :
    (tr.filterMap Prod.snd).head? = none
      ∨ (tr.filterMap Prod.snd).head? = some Event.SendPing := by
  induction tr with
  | nil => exact Or.inl rfl
  | cons e tr ih =>
    obtain ⟨t, ev⟩ := e
    cases t with
    | timerElapsed =>
      simp [ChainOK, pingerStep] at h
      right
      simp [h.1]
    | resetReceived =>
      simp [ChainOK, pingerStep] at h
      obtain ⟨rfl, h⟩ := h
      simpa using ih h
    | mailboxClosed =>
      simp [ChainOK, pingerStep] at h
      obtain ⟨rfl, rfl⟩ := h
      exact Or.inl rfl

/-- Helper: in a consistent trace, the iteration just before one that emits
Disconnect emitted SendPing, unless the Disconnect iteration is the very
first and the trace started in state ExpectPong. -/
theorem chainOK_before_disconnect (l₁ : List (Trigger × Option Event)) :
    ∀ (s : PingerState) (t : Trigger) (l₂ : List (Trigger × Option Event)),
    ChainOK s (l₁ ++ (t, some Event.Disconnect) :: l₂) →
    (l₁ = [] ∧ s = PingerState.ExpectPong)
      ∨ ∃ l₀ t', l₁ = l₀ ++ [(t', some Event.SendPing)] := by
  induction l₁ with
  | nil =>
    intro s t l₂ h
    cases s with
    | SendPing => cases t <;> simp [ChainOK, pingerStep] at h
    | ExpectPong =>
      cases t with
      | timerElapsed => exact Or.inl ⟨rfl, rfl⟩
      | resetReceived => simp [ChainOK, pingerStep] at h
      | mailboxClosed => simp [ChainOK, pingerStep] at h
  | cons e l₁ ih =>
    intro s t l₂ h
    obtain ⟨t₀, ev₀⟩ := e
    cases t₀ with
    | timerElapsed =>
      cases s with
      | SendPing =>
        simp [ChainOK, pingerStep] at h
        obtain ⟨rfl, h⟩ := h
        rcases ih PingerState.ExpectPong t l₂ h with ⟨rfl, -⟩ | ⟨l₀, t', rfl⟩
        · exact Or.inr ⟨[], Trigger.timerElapsed, rfl⟩
        · exact Or.inr ⟨(Trigger.timerElapsed, some Event.SendPing) :: l₀, t', rfl⟩
      | ExpectPong => simp [ChainOK, pingerStep] at h
    | resetReceived =>
      simp [ChainOK, pingerStep] at h
      obtain ⟨rfl, h⟩ := h
      rcases ih PingerState.SendPing t l₂ h with ⟨-, hcontra⟩ | ⟨l₀, t', rfl⟩
      · exact absurd hcontra (by simp)
      · exact Or.inr ⟨(Trigger.resetReceived, none) :: l₀, t', rfl⟩
    | mailboxClosed => simp [ChainOK, pingerStep] at h

/-- Helper: after an iteration that emits SendPing, the rest of a
consistent trace is a consistent trace from state ExpectPong. -/
theorem chainOK_after_sendPing (l₁ : List (Trigger × Option Event)) :
    ∀ (s : PingerState) (t : Trigger) (rest : List (Trigger × Option Event)),
    ChainOK s (l₁ ++ (t, some Event.SendPing) :: rest) →
    ChainOK PingerState.ExpectPong rest := by
  induction l₁ with
  | nil =>
    intro s t rest h
    cases s with
    | SendPing =>
      cases t with
      | timerElapsed =>
        simp [ChainOK, pingerStep] at h
        exact h
      | resetReceived => simp [ChainOK, pingerStep] at h
      | mailboxClosed => simp [ChainOK, pingerStep] at h
    | ExpectPong => cases t <;> simp [ChainOK, pingerStep] at h
  | cons e l₁ ih =>
    intro s t rest h
    obtain ⟨t₀, ev₀⟩ := e
    cases t₀ with
    | timerElapsed =>
      cases s with
      | SendPing =>
        simp [ChainOK, pingerStep] at h
        exact ih PingerState.ExpectPong t rest h.2
      | ExpectPong => simp [ChainOK, pingerStep] at h
    | resetReceived =>
      simp [ChainOK, pingerStep] at h
      exact ih PingerState.SendPing t rest h.2
    | mailboxClosed => simp [ChainOK, pingerStep] at h

/-- Helper: a consistent trace from state ExpectPong reaches an iteration
that emits SendPing only after an iteration that consumed a reset signal. -/
theorem chainOK_reset_before_next_ping (l₂ : List (Trigger × Option Event))
    (t₂ : Trigger) (l₃ : List (Trigger × Option Event))
    (h : ChainOK PingerState.ExpectPong (l₂ ++ (t₂, some Event.SendPing) :: l₃)) :
    ∃ e ∈ l₂, e.1 = Trigger.resetReceived := by
  cases l₂ with
  | nil => cases t₂ <;> simp [ChainOK, pingerStep] at h
  | cons e l₂ =>
    obtain ⟨t₀, ev₀⟩ := e
    cases t₀ with
    | timerElapsed => simp [ChainOK, pingerStep] at h
    | resetReceived =>
      exact ⟨(Trigger.resetReceived, ev₀), List.mem_cons_self _ _, rfl⟩
    | mailboxClosed => simp [ChainOK, pingerStep] at h

/-- C9: ordering invariant of the emitted event stream, read off the trace
of any run from the initial state: the first emitted event, if any, is
SendPing and never Disconnect; an iteration that emits Disconnect is
immediately preceded by the iteration that emitted SendPing, so no reset
signal is consumed between the two emissions; and between two iterations
that emit SendPing some iteration consumes a reset signal. -/
theorem event_stream_ordering (ts : List Trigger) :
    (((pingerTrace initialState ts).filterMap Prod.snd).head? = none
      ∨ ((pingerTrace initialState ts).filterMap Prod.snd).head? = some Event.SendPing)
    ∧ (∀ (l₁ : List (Trigger × Option Event)) (t : Trigger)
        (l₂ : List (Trigger × Option Event)),
        pingerTrace initialState ts = l₁ ++ (t, some Event.Disconnect) :: l₂ →
        ∃ l₀ t', l₁ = l₀ ++ [(t', some Event.SendPing)])
    ∧ (∀ (l₁ : List (Trigger × Option Event)) (t₁ : Trigger)
        (l₂ : List (Trigger × Option Event)) (t₂ : Trigger)
        (l₃ : List (Trigger × Option Event)),
        pingerTrace initialState ts
          = l₁ ++ (t₁, some Event.SendPing) :: (l₂ ++ (t₂, some Event.SendPing) :: l₃) →
        ∃ e ∈ l₂, e.1 = Trigger.resetReceived) := by
  have hok : ChainOK initialState (pingerTrace initialState ts) :=
    chainOK_pingerTrace ts initialState
  refine ⟨chainOK_first_event _ hok, ?_, ?_⟩
  · intro l₁ t l₂ hdecomp
    rw [hdecomp] at hok
    rcases chainOK_before_disconnect l₁ initialState t l₂ hok with ⟨-, hcontra⟩ | h
    · exact absurd hcontra (by simp [initialState])
    · exact h
  · intro l₁ t₁ l₂ t₂ l₃ hdecomp
    rw [hdecomp] at hok
    exact chainOK_reset_before_next_ping l₂ t₂ l₃
      (chainOK_after_sendPing l₁ initialState t₁ _ hok)

/-- Witness for C9 on two concrete runs: two timer elapses in a row, where
the Disconnect is immediately preceded by the SendPing iteration, and a
run ping-reset-ping, where the reset iteration lies between the two
SendPing emissions. -/
theorem event_stream_ordering_witness :
    pingerTrace initialState [Trigger.timerElapsed, Trigger.timerElapsed]
      = [(Trigger.timerElapsed, some Event.SendPing)]
        ++ (Trigger.timerElapsed, some Event.Disconnect) :: []
    ∧ (∃ l₀ t', [(Trigger.timerElapsed, some Event.SendPing)]
        = l₀ ++ [(t', some Event.SendPing)])
    ∧ ∃ e ∈ [(Trigger.resetReceived, (none : Option Event))],
        e.1 = Trigger.resetReceived := by
  refine ⟨by decide, ?_, ?_⟩
  · exact (event_stream_ordering [Trigger.timerElapsed, Trigger.timerElapsed]).2.1
      [(Trigger.timerElapsed, some Event.SendPing)] Trigger.timerElapsed [] (by decide)
  · exact (event_stream_ordering
      [Trigger.timerElapsed, Trigger.resetReceived, Trigger.timerElapsed]).2.2
      [] Trigger.timerElapsed [(Trigger.resetReceived, none)] Trigger.timerElapsed []
      (by decide)

/-- C10: once the task has returned, for instance after emitting Disconnect
on a second timeout, the receive side of the reset mailbox is dropped; a
reset call then has its try_send fail with the closed error, which is
discarded, and the call returns normally leaving the mailbox unchanged. -/
theorem reset_after_task_exit (slot : Option Unit) :
    pingerRun PingerState.ExpectPong [Trigger.timerElapsed] = ([Event.Disconnect], none)
    ∧ ResetMailbox.trySend ⟨slot, false⟩ = Except.error TrySendError.closed
    ∧ Pinger.reset ⟨⟨slot, false⟩⟩ = ⟨⟨slot, false⟩⟩ := by
  exact ⟨by decide, rfl, rfl⟩
